import Mathlib

/-!
Verification of the event-notification and namespace-locking layer of the
pg-promise library (src/lib/events.js and src/lib/index.js), via a shallow
embedding in Lean.  JavaScript values are modelled by the inductive type
JSVal; objects reachable by reference live in an explicit heap, so handler
mutation and object identity can be expressed.  Event handlers are modelled
as heap transformers that either return normally or throw a value (a heap
reference).  Each dispatch function of the source object is translated
directly from src/lib/events.js.
-/

/-- Model of a JavaScript value, used for pure (snapshot) values: the payload
of thrown errors examined by the diagnostic sink, initialization options,
connection arguments.  funcV stands for a function value, identified by an
opaque tag. -/
inductive JSVal where
  | undefined : JSVal
  | nullV : JSVal
  | boolV (b : Bool) : JSVal
  | numV (n : Int) : JSVal
  | strV (s : String) : JSVal
  | objV (fields : List (String × JSVal)) : JSVal
  | funcV (tag : Nat) : JSVal

/-- JavaScript truthiness of a value. -/
def truthy : JSVal → Bool
  | JSVal.undefined => false
  | JSVal.nullV => false
  | JSVal.boolV b => b
  | JSVal.numV n => decide (n ≠ 0)
  | JSVal.strV s => decide (s ≠ "")
  | JSVal.objV _ => true
  | JSVal.funcV _ => true

/-- The JavaScript typeof operator restricted to the modelled values; note
that typeof null is the string object, as in JavaScript. -/
def typeOf : JSVal → String
  | JSVal.undefined => "undefined"
  | JSVal.nullV => "object"
  | JSVal.boolV _ => "boolean"
  | JSVal.numV _ => "number"
  | JSVal.strV _ => "string"
  | JSVal.objV _ => "object"
  | JSVal.funcV _ => "function"

/-- Property read v.k: the field value when v is an object carrying the key,
and undefined otherwise (matching property access on primitives). -/
def getField (v : JSVal) (k : String) : JSVal :=
  match v with
  | JSVal.objV fs =>
    match fs.find? (fun p => p.1 == k) with
    | some p => p.2
    | none => JSVal.undefined
  | _ => JSVal.undefined

/-- The JavaScript a || b operator on values. -/
def jsOr (a b : JSVal) : JSVal := if truthy a then a else b

/-- Key-presence test for an object field list, the JavaScript in operator. -/
def hasKey (fs : List (String × JSVal)) (k : String) : Bool :=
  fs.any (fun p => p.1 == k)

/-- Modelled from the spec: utils.isNull of src/lib/utils.js, which is outside
src/ — true exactly for the null and undefined values. -/
def isNull (v : JSVal) : Bool :=
  match v with
  | JSVal.undefined => true
  | JSVal.nullV => true
  | _ => false

/-- Heap addresses: mutable JavaScript objects are passed by reference. -/
abbrev Ref := Nat

/-- The mutable store, mapping each reference to its current value. -/
abbrev Heap := Ref → JSVal

/-- Modelled from the spec: utils.InternalError of src/lib/utils.js, which is
outside src/ — a wrapper marking an error as raised inside an event handler;
it carries the thrown value. -/
structure InternalError where
  err : Ref
deriving DecidableEq

/-- A one-argument event handler: given its argument reference and the heap,
it yields the updated heap and either returns normally or throws a value. -/
abbrev Handler1 := Ref → Heap → Heap × Except Ref Unit

/-- A two-argument event handler (the error event handler takes the error and
the event context; the extend handler takes its receiver and its argument). -/
abbrev Handler2 := Ref → Ref → Heap → Heap × Except Ref Unit

/-- A three-argument event handler (the receive event handler takes data,
result and the event context). -/
abbrev Handler3 := Ref → Ref → Ref → Heap → Heap × Except Ref Unit

/-- An optional handler slot in the initialization options: the property can
be absent, present but not a Function (so the instanceof Function test of the
dispatcher fails), or a callable handler. -/
inductive OptField (H : Type) where
  | absent : OptField H
  | notFn (v : JSVal) : OptField H
  | fn (h : H) : OptField H

/-- The initialization options object as consumed by the event dispatcher of
src/lib/events.js: one optional handler per event kind. -/
structure Options where
  connect : OptField Handler1
  disconnect : OptField Handler1
  query : OptField Handler1
  receive : OptField Handler3
  task : OptField Handler1
  transact : OptField Handler1
  error : OptField Handler2
  extend : OptField Handler2

/-- Result of one dispatch call: the heap after any handler ran, the value
returned by the dispatch function (some wrapped InternalError for a vetoing
event, none standing for the undefined return), and the sequence of
invocations of the diagnostic sink, each recorded as the event name passed
together with the thrown value. -/
structure DispatchOut where
  heap : Heap
  ret : Option InternalError
  unexpectedLog : List (String × Ref)

namespace events

/-- Translation of the connect member of the event object in
src/lib/events.js: run the handler when options is truthy and the property is
a Function; a thrown error is silenced and routed to the diagnostic sink
under the event name. -/
def connect (options : Option Options) (client : Ref) (H : Heap) : DispatchOut :=
  match options with
  | some o =>
    match o.connect with
    | OptField.fn h =>
      match h client H with
      | (H2, Except.ok _) => ⟨H2, none, []⟩
      | (H2, Except.error e) => ⟨H2, none, [("connect", e)]⟩
    | _ => ⟨H, none, []⟩
  | none => ⟨H, none, []⟩

/-- Translation of the disconnect member of src/lib/events.js, the mirror of
connect. -/
def disconnect (options : Option Options) (client : Ref) (H : Heap) : DispatchOut :=
  match options with
  | some o =>
    match o.disconnect with
    | OptField.fn h =>
      match h client H with
      | (H2, Except.ok _) => ⟨H2, none, []⟩
      | (H2, Except.error e) => ⟨H2, none, [("disconnect", e)]⟩
    | _ => ⟨H, none, []⟩
  | none => ⟨H, none, []⟩

/-- Translation of the query member of src/lib/events.js: a thrown error is
wrapped into an InternalError and returned, to become a reject for the
request; otherwise the function returns undefined. -/
def query (options : Option Options) (context : Ref) (H : Heap) : DispatchOut :=
  match options with
  | some o =>
    match o.query with
    | OptField.fn h =>
      match h context H with
      | (H2, Except.ok _) => ⟨H2, none, []⟩
      | (H2, Except.error e) => ⟨H2, some (InternalError.mk e), []⟩
    | _ => ⟨H, none, []⟩
  | none => ⟨H, none, []⟩

/-- Translation of the receive member of src/lib/events.js: the handler is
called with the data, result and context references themselves; a thrown
error is wrapped into an InternalError and returned. -/
def receive (options : Option Options) (data result context : Ref) (H : Heap) : DispatchOut :=
  match options with
  | some o =>
    match o.receive with
    | OptField.fn h =>
      match h data result context H with
      | (H2, Except.ok _) => ⟨H2, none, []⟩
      | (H2, Except.error e) => ⟨H2, some (InternalError.mk e), []⟩
    | _ => ⟨H, none, []⟩
  | none => ⟨H, none, []⟩

/-- Translation of the task member of src/lib/events.js: errors are silenced
to avoid breaking the task and routed to the diagnostic sink. -/
def task (options : Option Options) (context : Ref) (H : Heap) : DispatchOut :=
  match options with
  | some o =>
    match o.task with
    | OptField.fn h =>
      match h context H with
      | (H2, Except.ok _) => ⟨H2, none, []⟩
      | (H2, Except.error e) => ⟨H2, none, [("task", e)]⟩
    | _ => ⟨H, none, []⟩
  | none => ⟨H, none, []⟩

/-- Translation of the transact member of src/lib/events.js, the mirror of
task for transactions. -/
def transact (options : Option Options) (context : Ref) (H : Heap) : DispatchOut :=
  match options with
  | some o =>
    match o.transact with
    | OptField.fn h =>
      match h context H with
      | (H2, Except.ok _) => ⟨H2, none, []⟩
      | (H2, Except.error e) => ⟨H2, none, [("transact", e)]⟩
    | _ => ⟨H, none, []⟩
  | none => ⟨H, none, []⟩

/-- Translation of the error member of src/lib/events.js: the handler gets
the reported error and the context; a handler exception is silenced and
routed to the diagnostic sink, and the function always returns undefined. -/
def error (options : Option Options) (err context : Ref) (H : Heap) : DispatchOut :=
  match options with
  | some o =>
    match o.error with
    | OptField.fn h =>
      match h err context H with
      | (H2, Except.ok _) => ⟨H2, none, []⟩
      | (H2, Except.error e) => ⟨H2, none, [("error", e)]⟩
    | _ => ⟨H, none, []⟩
  | none => ⟨H, none, []⟩

/-- Translation of the extend member of src/lib/events.js: the handler is
invoked through Function.call with the protocol object as the receiver and
the same object as the sole argument; exceptions are silenced and routed to
the diagnostic sink. -/
def extend (options : Option Options) (obj : Ref) (H : Heap) : DispatchOut :=
  match options with
  | some o =>
    match o.extend with
    | OptField.fn h =>
      match h obj obj H with
      | (H2, Except.ok _) => ⟨H2, none, []⟩
      | (H2, Except.error e) => ⟨H2, none, [("extend", e)]⟩
    | _ => ⟨H, none, []⟩
  | none => ⟨H, none, []⟩

/-- The single-quote character used in the console line of the diagnostic
sink. -/
def quoteChar : Char := Char.ofNat 39

/-- The first console line written by the diagnostic sink, naming the event. -/
def unexpectedHeader (event : String) : String :=
  "Unexpected error in " ++ String.singleton quoteChar ++ event
    ++ String.singleton quoteChar ++ " event handler."

/-- Translation of the unexpected member of src/lib/events.js: the list of
values written to the console, in order.  When the suppressErrors flag of the
main module is set nothing is written; otherwise the header line naming the
event is written, followed, when the error is not null or undefined, by the
chain err.stack, falling back to err.message, falling back to err itself. -/
def unexpected (suppressErrors : Bool) (event : String) (err : JSVal) : List JSVal :=
  if suppressErrors then []
  else
    JSVal.strV (unexpectedHeader event) ::
      (if isNull err then []
       else [jsOr (getField err "stack") (jsOr (getField err "message") err)])

end events

/-- Modelled from the spec: the query executor (outside src/) consults the
query event just before driver execution; a returned InternalError becomes
the rejection reason of the pending operation and the driver is never
invoked for it.  driverCalled records whether the driver ran. -/
structure QueryRun where
  driverCalled : Bool
  outcome : Except InternalError JSVal

/-- Modelled from the spec: one query operation — fire the query event, then
either reject with the returned InternalError without touching the driver,
or execute the statement through the driver. -/
def runQuery (options : Option Options) (context : Ref) (H : Heap)
    (driver : Heap → JSVal) : Heap × QueryRun :=
  let out := events.query options context H
  match out.ret with
  | some e => (out.heap, QueryRun.mk false (Except.error e))
  | none => (out.heap, QueryRun.mk true (Except.ok (driver out.heap)))

/-- Modelled from the spec: the row-delivery step (outside src/) — after rows
arrive the library fires the receive event; a returned InternalError rejects
the request, otherwise the very same data reference is handed to the
caller. -/
def deliverRows (options : Option Options) (data result context : Ref)
    (H : Heap) : Heap × Except InternalError Ref :=
  let out := events.receive options data result context H
  match out.ret with
  | some e => (out.heap, Except.error e)
  | none => (out.heap, Except.ok data)

/-!
Task/transaction context objects.  The code constructing them (src/lib/task.js)
is outside src/; the model below follows the spec: a context is created with
start set and finish, success, result absent; when the underlying operation
settles, finish, success and result are assigned together in one transition.
-/

/-- The task/transaction context record: optional fields model property
absence. -/
structure TaskCtx where
  isTX : Bool
  start : Nat
  tag : Option JSVal
  finish : Option Nat
  success : Option Bool
  result : Option JSVal
  context : Option JSVal

/-- Modelled from the spec: context creation at task or transaction start —
start is set, finish, success and result are absent. -/
def createCtx (isTX : Bool) (start : Nat) (tag : Option JSVal)
    (cobj : Option JSVal) : TaskCtx :=
  TaskCtx.mk isTX start tag none none none cobj

/-- Modelled from the spec: the completion transition — when the operation
settles, finish, success and result are assigned together; success is true
with the resolved value on fulfillment, false with the rejection reason on
rejection. -/
def finishCtx (c : TaskCtx) (t : Nat) (outcome : Except JSVal JSVal) : TaskCtx :=
  TaskCtx.mk c.isTX c.start c.tag (some t)
    (some (match outcome with | Except.ok _ => true | Except.error _ => false))
    (some (match outcome with | Except.ok v => v | Except.error e => e))
    c.context

/-- The contexts that can actually arise: freshly created ones and those
obtained from a pending context by the completion transition. -/
inductive CtxReachable : TaskCtx → Prop where
  | created (isTX : Bool) (start : Nat) (tag : Option JSVal)
      (cobj : Option JSVal) : CtxReachable (createCtx isTX start tag cobj)
  | settled (c : TaskCtx) (t : Nat) (outcome : Except JSVal JSVal) :
      CtxReachable c → c.finish = none → CtxReachable (finishCtx c t outcome)

/-!
Namespace locking.  utils.lock and utils.addProperties live in
src/lib/utils.js, outside src/; the model below follows the spec: lock makes
the existing properties of an object read-only, optionally recursing into
nested objects, and is disabled wholesale by the noLocking initialization
flag.  LVal is a value tree in which each object carries its lock state.
-/

/-- A value in the locking model: a primitive, or an object with a lock flag
and named fields. -/
inductive LVal where
  | prim (v : JSVal) : LVal
  | object (locked : Bool) (fields : List (String × LVal)) : LVal

mutual

/-- Modelled from the spec: the locking pass of utils.lock — mark the object
read-only and, when deep, recursively lock the nested values. -/
def lockCore : Bool → LVal → LVal
  | _, LVal.prim v => LVal.prim v
  | deep, LVal.object _ fs =>
    LVal.object true (if deep then lockFields deep fs else fs)

/-- Recursive locking of an object field list. -/
def lockFields : Bool → List (String × LVal) → List (String × LVal)
  | _, [] => []
  | deep, (k, v) :: rest => (k, lockCore deep v) :: lockFields deep rest

end

/-- Modelled from the spec: utils.lock(target, deep) guarded by the noLocking
initialization flag — when the flag is set every locking call is disabled and
the target is returned unchanged. -/
def lock (noLocking : Bool) (deep : Bool) (v : LVal) : LVal :=
  if noLocking then v else lockCore deep v

/-- Overwrite or append a field in an object field list. -/
def setField : List (String × LVal) → String → LVal → List (String × LVal)
  | [], k, x => [(k, x)]
  | (k2, v) :: rest, k, x =>
    if k2 == k then (k, x) :: rest else (k2, v) :: setField rest k x

/-- Outcome of a member assignment on a namespace object. -/
inductive SetOutcome where
  | ok (v : LVal) : SetOutcome
  | writeProtectionError : SetOutcome

/-- Modelled from the spec: assignment of a member on a namespace object —
on a locked object, adding a new member or overwriting an existing one fails
with a write-protection error; on an unlocked object the member is written.
Assignment on a primitive is the silent JavaScript no-op. -/
def setMember : LVal → String → LVal → SetOutcome
  | LVal.prim v, _, _ => SetOutcome.ok (LVal.prim v)
  | LVal.object true _, _, _ => SetOutcome.writeProtectionError
  | LVal.object false fs, k, x => SetOutcome.ok (LVal.object false (setField fs k x))

/-!
Library initialization, src/lib/index.js.  The connection-string detection
for a string argument goes through the external pg-connection-string parser,
so it is abstracted as a boolean oracle csInvalid; the claims checked here do
not depend on it.
-/

/-- The second initialization error message of the main function. -/
def initMixupMsg : String :=
  "Invalid library initialization: must initialize the library before creating a database object."

/-- Translation of the validation prologue of the main function of
src/lib/index.js: the TypeError message thrown for the given options value,
or none when initialization proceeds.  csInvalid is the oracle for the
connection-string check applied to a string argument. -/
def mainValidate (csInvalid : String → Bool) (options : JSVal) : Option String :=
  if isNull options then none
  else
    let invalidInit1 : JSVal :=
      match options with
      | JSVal.strV s => JSVal.boolV (csInvalid s)
      | _ => JSVal.undefined
    if typeOf options == "object" then
      let invalidInit2 : JSVal :=
        match options with
        | JSVal.objV fs => JSVal.boolV (hasKey fs "host" || hasKey fs "database")
        | _ => invalidInit1
      if truthy invalidInit2 then some initMixupMsg else none
    else
      if !(truthy invalidInit1) then some "Invalid initialization options."
      else some initMixupMsg

/-- Record of a Database construction performed by the instance function of
src/lib/index.js: the connection argument and the captured options. -/
structure DatabaseCall where
  cn : JSVal
  options : JSVal

/-- Translation of the instance function returned by the main function of
src/lib/index.js: a truthy string or object connection argument constructs a
Database; anything else throws a TypeError. -/
def inst (options : JSVal) (cn : JSVal) : Except String DatabaseCall :=
  let t := typeOf cn
  if truthy cn && (t == "string" || t == "object") then
    Except.ok (DatabaseCall.mk cn options)
  else
    Except.error "Invalid connection details."

/-- A sample handler that throws the value at reference 7, leaving the heap
alone. -/
def throwingH1 : Handler1 := fun _ H => (H, Except.error 7)

/-- A sample handler that returns normally, leaving the heap alone. -/
def okH1 : Handler1 := fun _ H => (H, Except.ok ())

/-- A sample three-argument handler that throws the value at reference 9. -/
def throwingH3 : Handler3 := fun _ _ _ H => (H, Except.error 9)

/-- A sample two-argument handler that throws the value at reference 11. -/
def throwingH2 : Handler2 := fun _ _ H => (H, Except.error 11)

/-- A sample three-argument handler that writes a marker string to its first
argument (the data reference) and returns normally. -/
def mutatingH3 : Handler3 := fun d _ _ H =>
  ((fun r => if r = d then JSVal.strV "camelized" else H r), Except.ok ())

/-- An options object with no handler configured. -/
def noHandlers : Options :=
  Options.mk OptField.absent OptField.absent OptField.absent OptField.absent
    OptField.absent OptField.absent OptField.absent OptField.absent

/-- An options object whose only handler is a throwing query handler. -/
def onlyQueryThrow : Options :=
  Options.mk OptField.absent OptField.absent (OptField.fn throwingH1)
    OptField.absent OptField.absent OptField.absent OptField.absent OptField.absent

/-- An options object whose only handler is a throwing connect handler. -/
def onlyConnectThrow : Options :=
  Options.mk (OptField.fn throwingH1) OptField.absent OptField.absent
    OptField.absent OptField.absent OptField.absent OptField.absent OptField.absent

/-- An options object whose only handler is a throwing error handler. -/
def onlyErrorThrow : Options :=
  Options.mk OptField.absent OptField.absent OptField.absent OptField.absent
    OptField.absent OptField.absent (OptField.fn throwingH2) OptField.absent

/-- An options object whose only handler is a mutating receive handler. -/
def onlyReceiveMutate : Options :=
  Options.mk OptField.absent OptField.absent OptField.absent
    (OptField.fn mutatingH3) OptField.absent OptField.absent OptField.absent
    OptField.absent

/-- An options object whose only handler is a throwing extend handler. -/
def onlyExtendThrow : Options :=
  Options.mk OptField.absent OptField.absent OptField.absent OptField.absent
    OptField.absent OptField.absent OptField.absent (OptField.fn throwingH2)

/-- The all-undefined heap, used to instantiate universal statements. -/
def emptyHeap : Heap := fun _ => JSVal.undefined

mutual

/-- Locking an already-locked value changes nothing, value part. -/
theorem lockCore_idem (deep : Bool) (v : LVal) :
    lockCore deep (lockCore deep v) = lockCore deep v := by
  cases v with
  | prim w => simp [lockCore]
  | object locked fs =>
    cases deep with
    | false => simp [lockCore]
    | true => simp [lockCore, lockFields_idem true fs]

/-- Locking an already-locked value changes nothing, field-list part. -/
theorem lockFields_idem (deep : Bool) (fs : List (String × LVal)) :
    lockFields deep (lockFields deep fs) = lockFields deep fs := by
  cases fs with
  | nil => simp [lockFields]
  | cons p rest =>
    cases p with
    | mk k v => simp [lockFields, lockCore_idem deep v, lockFields_idem deep rest]

end

/-- C1: for the veto-capable events query and receive — a configured handler
that throws a value makes the dispatch function return an InternalError
wrapping that value, which becomes the rejection reason of the pending
operation, and the driver is not invoked for that operation (the rows are not
delivered); a handler that returns normally, or an absent handler, makes the
dispatch function return no error. -/
theorem query_receive_veto :
    (∀ (o : Options) (h : Handler1) (ctx : Ref) (H H2 : Heap) (e : Ref),
      o.query = OptField.fn h → h ctx H = (H2, Except.error e) →
      events.query (some o) ctx H = ⟨H2, some (InternalError.mk e), []⟩ ∧
      ∀ (drv : Heap → JSVal),
        runQuery (some o) ctx H drv
          = (H2, QueryRun.mk false (Except.error (InternalError.mk e)))) ∧
    (∀ (o : Options) (h : Handler3) (d r c : Ref) (H H2 : Heap) (e : Ref),
      o.receive = OptField.fn h → h d r c H = (H2, Except.error e) →
      events.receive (some o) d r c H = ⟨H2, some (InternalError.mk e), []⟩ ∧
      deliverRows (some o) d r c H = (H2, Except.error (InternalError.mk e))) ∧
    (∀ (o : Options) (h : Handler1) (ctx : Ref) (H H2 : Heap) (u : Unit),
      o.query = OptField.fn h → h ctx H = (H2, Except.ok u) →
      (events.query (some o) ctx H).ret = none) ∧
    (∀ (o : Options) (h : Handler3) (d r c : Ref) (H H2 : Heap) (u : Unit),
      o.receive = OptField.fn h → h d r c H = (H2, Except.ok u) →
      (events.receive (some o) d r c H).ret = none) ∧
    (∀ (ctx : Ref) (H : Heap), (events.query none ctx H).ret = none) := by
  refine ⟨?_, ?_, ?_, ?_, ?_⟩
  · intro o h ctx H H2 e hq hh
    constructor
    · simp [events.query, hq, hh]
    · intro drv
      simp [runQuery, events.query, hq, hh]
  · intro o h d r c H H2 e hq hh
    constructor
    · simp [events.receive, hq, hh]
    · simp [deliverRows, events.receive, hq, hh]
  · intro o h ctx H H2 u hq hh
    simp [events.query, hq, hh]
  · intro o h d r c H H2 u hq hh
    simp [events.receive, hq, hh]
  · intro ctx H
    simp [events.query]

/-- C1 witness: a concrete throwing query handler vetoes the operation with
the wrapped thrown value and the driver is never called. -/
theorem query_receive_veto_witness :
    events.query (some onlyQueryThrow) 0 emptyHeap
      = ⟨emptyHeap, some (InternalError.mk 7), []⟩ ∧
    runQuery (some onlyQueryThrow) 0 emptyHeap (fun _ => JSVal.numV 1)
      = (emptyHeap, QueryRun.mk false (Except.error (InternalError.mk 7))) := by
  have h := query_receive_veto.1 onlyQueryThrow throwingH1 0 emptyHeap emptyHeap 7
    rfl rfl
  exact ⟨h.1, h.2 (fun _ => JSVal.numV 1)⟩

/-- C2: for every fire-and-forget event — connect, disconnect, task,
transact, error, extend — a configured handler that throws never alters the
dispatch return (it stays undefined, with no error value), and the diagnostic
sink is invoked exactly once with that event name and the thrown value; a
handler that returns normally produces no diagnostic-sink invocation. -/
theorem fire_and_forget_isolation :
    (∀ (o : Options) (h : Handler1) (c : Ref) (H H2 : Heap) (e : Ref),
      o.connect = OptField.fn h → h c H = (H2, Except.error e) →
      events.connect (some o) c H = ⟨H2, none, [("connect", e)]⟩) ∧
    (∀ (o : Options) (h : Handler1) (c : Ref) (H H2 : Heap) (u : Unit),
      o.connect = OptField.fn h → h c H = (H2, Except.ok u) →
      events.connect (some o) c H = ⟨H2, none, []⟩) ∧
    (∀ (o : Options) (h : Handler1) (c : Ref) (H H2 : Heap) (e : Ref),
      o.disconnect = OptField.fn h → h c H = (H2, Except.error e) →
      events.disconnect (some o) c H = ⟨H2, none, [("disconnect", e)]⟩) ∧
    (∀ (o : Options) (h : Handler1) (c : Ref) (H H2 : Heap) (u : Unit),
      o.disconnect = OptField.fn h → h c H = (H2, Except.ok u) →
      events.disconnect (some o) c H = ⟨H2, none, []⟩) ∧
    (∀ (o : Options) (h : Handler1) (c : Ref) (H H2 : Heap) (e : Ref),
      o.task = OptField.fn h → h c H = (H2, Except.error e) →
      events.task (some o) c H = ⟨H2, none, [("task", e)]⟩) ∧
    (∀ (o : Options) (h : Handler1) (c : Ref) (H H2 : Heap) (u : Unit),
      o.task = OptField.fn h → h c H = (H2, Except.ok u) →
      events.task (some o) c H = ⟨H2, none, []⟩) ∧
    (∀ (o : Options) (h : Handler1) (c : Ref) (H H2 : Heap) (e : Ref),
      o.transact = OptField.fn h → h c H = (H2, Except.error e) →
      events.transact (some o) c H = ⟨H2, none, [("transact", e)]⟩) ∧
    (∀ (o : Options) (h : Handler1) (c : Ref) (H H2 : Heap) (u : Unit),
      o.transact = OptField.fn h → h c H = (H2, Except.ok u) →
      events.transact (some o) c H = ⟨H2, none, []⟩) ∧
    (∀ (o : Options) (h : Handler2) (a b : Ref) (H H2 : Heap) (e : Ref),
      o.error = OptField.fn h → h a b H = (H2, Except.error e) →
      events.error (some o) a b H = ⟨H2, none, [("error", e)]⟩) ∧
    (∀ (o : Options) (h : Handler2) (a b : Ref) (H H2 : Heap) (u : Unit),
      o.error = OptField.fn h → h a b H = (H2, Except.ok u) →
      events.error (some o) a b H = ⟨H2, none, []⟩) ∧
    (∀ (o : Options) (h : Handler2) (t : Ref) (H H2 : Heap) (e : Ref),
      o.extend = OptField.fn h → h t t H = (H2, Except.error e) →
      events.extend (some o) t H = ⟨H2, none, [("extend", e)]⟩) ∧
    (∀ (o : Options) (h : Handler2) (t : Ref) (H H2 : Heap) (u : Unit),
      o.extend = OptField.fn h → h t t H = (H2, Except.ok u) →
      events.extend (some o) t H = ⟨H2, none, []⟩) := by
  refine ⟨?_, ?_, ?_, ?_, ?_, ?_, ?_, ?_, ?_, ?_, ?_, ?_⟩ <;>
    intros <;>
    simp_all [events.connect, events.disconnect, events.task, events.transact,
      events.error, events.extend]

/-- C2 witness: a concrete throwing connect handler is silenced, the dispatch
returns no error, and the diagnostic sink records exactly one invocation with
the event name and the thrown value. -/
theorem fire_and_forget_isolation_witness :
    events.connect (some onlyConnectThrow) 3 emptyHeap
      = ⟨emptyHeap, none, [("connect", 7)]⟩ :=
  fire_and_forget_isolation.1 onlyConnectThrow throwingH1 3 emptyHeap emptyHeap 7
    rfl rfl

/-- C3: for every reachable task/transaction context, finish is absent
exactly when success and result are both absent; and the completion
transition — which builds the context delivered in the finish notification —
carries success true with the resolved value on fulfillment and success false
with the rejection reason on rejection, assigning finish at the same time. -/
theorem taskCtx_finish_invariant :
    (∀ (c : TaskCtx), CtxReachable c →
      (c.finish = none ↔ (c.success = none ∧ c.result = none))) ∧
    (∀ (c : TaskCtx) (t : Nat) (v : JSVal),
      (finishCtx c t (Except.ok v)).finish = some t ∧
      (finishCtx c t (Except.ok v)).success = some true ∧
      (finishCtx c t (Except.ok v)).result = some v) ∧
    (∀ (c : TaskCtx) (t : Nat) (e : JSVal),
      (finishCtx c t (Except.error e)).finish = some t ∧
      (finishCtx c t (Except.error e)).success = some false ∧
      (finishCtx c t (Except.error e)).result = some e) := by
  refine ⟨?_, ?_, ?_⟩
  · intro c hc
    induction hc with
    | created isTX start tag cobj => simp [createCtx]
    | settled c t outcome _ _ _ => simp [finishCtx]
  · intro c t v
    simp [finishCtx]
  · intro c t e
    simp [finishCtx]

/-- C3 witness: a freshly created context has all three completion fields
absent, and settling it with the resolved value 42 sets them together. -/
theorem taskCtx_finish_invariant_witness :
    ((createCtx false 0 none none).finish = none ↔
      ((createCtx false 0 none none).success = none ∧
        (createCtx false 0 none none).result = none)) ∧
    ((finishCtx (createCtx false 0 none none) 5 (Except.ok (JSVal.numV 42))).finish
        = some 5 ∧
      (finishCtx (createCtx false 0 none none) 5 (Except.ok (JSVal.numV 42))).success
        = some true ∧
      (finishCtx (createCtx false 0 none none) 5 (Except.ok (JSVal.numV 42))).result
        = some (JSVal.numV 42)) :=
  ⟨taskCtx_finish_invariant.1 (createCtx false 0 none none)
      (CtxReachable.created false 0 none none),
    taskCtx_finish_invariant.2.1 (createCtx false 0 none none) 5 (JSVal.numV 42)⟩

/-- C4: locking a namespace object a second time is a no-op; after locking
with the noLocking flag clear, adding a new member or overwriting an existing
one fails with a write-protection error; with the noLocking flag set, the
same assignment succeeds. -/
theorem namespace_lock_guard :
    (∀ (noLocking deep : Bool) (v : LVal),
      lock noLocking deep (lock noLocking deep v) = lock noLocking deep v) ∧
    (∀ (deep : Bool) (fs : List (String × LVal)) (k : String) (x : LVal),
      setMember (lock false deep (LVal.object false fs)) k x
        = SetOutcome.writeProtectionError) ∧
    (∀ (deep : Bool) (fs : List (String × LVal)) (k : String) (x : LVal),
      setMember (lock true deep (LVal.object false fs)) k x
        = SetOutcome.ok (LVal.object false (setField fs k x))) := by
  refine ⟨?_, ?_, ?_⟩
  · intro noLocking deep v
    cases noLocking with
    | false => simp [lock, lockCore_idem]
    | true => simp [lock]
  · intro deep fs k x
    cases deep <;> simp [lock, lockCore, setMember]
  · intro deep fs k x
    simp [lock, setMember]

/-- C5: the error event dispatch always returns undefined — it never hands a
substitute error back, whether or not the handler throws, so the originating
error keeps propagating; a handler-thrown exception is routed to the
diagnostic sink under the event name error; and the dispatcher performs no
store mutation of its own — with a handler that leaves the store alone, or no
handler, the originating error object is untouched. -/
theorem error_event_nonmasking :
    (∀ (o : Option Options) (err ctx : Ref) (H : Heap),
      (events.error o err ctx H).ret = none) ∧
    (∀ (o : Options) (h : Handler2) (err ctx : Ref) (H H2 : Heap) (e : Ref),
      o.error = OptField.fn h → h err ctx H = (H2, Except.error e) →
      events.error (some o) err ctx H = ⟨H2, none, [("error", e)]⟩) ∧
    (∀ (o : Options) (h : Handler2) (err ctx : Ref) (H : Heap),
      o.error = OptField.fn h → (∀ (a b : Ref) (K : Heap), (h a b K).1 = K) →
      (events.error (some o) err ctx H).heap = H) ∧
    (∀ (err ctx : Ref) (H : Heap),
      events.error none err ctx H = ⟨H, none, []⟩) := by
  refine ⟨?_, ?_, ?_, ?_⟩
  · intro o err ctx H
    match o with
    | none => simp [events.error]
    | some oo =>
      match hoe : oo.error with
      | OptField.absent => simp [events.error, hoe]
      | OptField.notFn v => simp [events.error, hoe]
      | OptField.fn h =>
        match hr : h err ctx H with
        | (H2, Except.ok u) => simp [events.error, hoe, hr]
        | (H2, Except.error e) => simp [events.error, hoe, hr]
  · intro o h err ctx H H2 e hoe hr
    simp [events.error, hoe, hr]
  · intro o h err ctx H hoe hpure
    match hr : h err ctx H with
    | (H2, Except.ok u) =>
      have : H2 = H := by
        have := hpure err ctx H
        rw [hr] at this
        exact this
      subst this
      simp [events.error, hoe, hr]
    | (H2, Except.error e) =>
      have : H2 = H := by
        have := hpure err ctx H
        rw [hr] at this
        exact this
      subst this
      simp [events.error, hoe, hr]
  · intro err ctx H
    simp [events.error]

/-- C5 witness: a concrete throwing error handler — the dispatch still
returns undefined, the store holding the original error is untouched, and the
sink records the handler exception under the event name error. -/
theorem error_event_nonmasking_witness :
    (events.error (some onlyErrorThrow) 1 2 emptyHeap).ret = none ∧
    events.error (some onlyErrorThrow) 1 2 emptyHeap
      = ⟨emptyHeap, none, [("error", 11)]⟩ ∧
    (events.error (some onlyErrorThrow) 1 2 emptyHeap).heap = emptyHeap :=
  ⟨error_event_nonmasking.1 (some onlyErrorThrow) 1 2 emptyHeap,
    error_event_nonmasking.2.1 onlyErrorThrow throwingH2 1 2 emptyHeap emptyHeap 11
      rfl rfl,
    error_event_nonmasking.2.2.1 onlyErrorThrow throwingH2 1 2 emptyHeap rfl
      (fun _ _ _ => rfl)⟩

/-- C6: the extend event invokes the configured handler with the protocol
object bound as the receiver and passed as the sole argument — receiver and
argument are the same reference; consequently two handlers that agree
whenever receiver and argument coincide are indistinguishable to the
dispatcher. -/
theorem extend_receiver_is_argument :
    (∀ (o : Options) (h : Handler2) (obj : Ref) (H H2 : Heap) (u : Unit),
      o.extend = OptField.fn h → h obj obj H = (H2, Except.ok u) →
      events.extend (some o) obj H = ⟨H2, none, []⟩) ∧
    (∀ (o : Options) (h : Handler2) (obj : Ref) (H H2 : Heap) (e : Ref),
      o.extend = OptField.fn h → h obj obj H = (H2, Except.error e) →
      events.extend (some o) obj H = ⟨H2, none, [("extend", e)]⟩) ∧
    (∀ (o1 o2 : Options) (h1 h2 : Handler2) (obj : Ref) (H : Heap),
      o1.extend = OptField.fn h1 → o2.extend = OptField.fn h2 →
      (∀ (r : Ref) (K : Heap), h1 r r K = h2 r r K) →
      events.extend (some o1) obj H = events.extend (some o2) obj H) := by
  refine ⟨?_, ?_, ?_⟩
  · intro o h obj H H2 u hoe hr
    simp [events.extend, hoe, hr]
  · intro o h obj H H2 e hoe hr
    simp [events.extend, hoe, hr]
  · intro o1 o2 h1 h2 obj H hoe1 hoe2 hdiag
    simp [events.extend, hoe1, hoe2, hdiag obj H]

/-- C6 witness: a concrete extend handler that throws sees the protocol
object as both receiver and argument, and the dispatcher behaves exactly as
the handler applied to that diagonal pair. -/
theorem extend_receiver_is_argument_witness :
    events.extend (some onlyExtendThrow) 4 emptyHeap
      = ⟨emptyHeap, none, [("extend", 11)]⟩ ∧
    events.extend (some onlyExtendThrow) 4 emptyHeap
      = events.extend (some onlyExtendThrow) 4 emptyHeap :=
  ⟨extend_receiver_is_argument.2.1 onlyExtendThrow throwingH2 4 emptyHeap
      emptyHeap 11 rfl rfl,
    extend_receiver_is_argument.2.2 onlyExtendThrow onlyExtendThrow throwingH2
      throwingH2 4 emptyHeap rfl rfl (fun _ _ => rfl)⟩

/-- C7: for every event kind, when the options object is null/undefined or
the corresponding handler option is absent or not a Function, the dispatch
invokes nothing and has no effect — the store is unchanged, the return is
undefined (no error), and the diagnostic sink is never invoked. -/
theorem no_handler_noop :
    (∀ (c : Ref) (H : Heap),
      events.connect none c H = ⟨H, none, []⟩ ∧
      events.disconnect none c H = ⟨H, none, []⟩ ∧
      events.query none c H = ⟨H, none, []⟩ ∧
      events.task none c H = ⟨H, none, []⟩ ∧
      events.transact none c H = ⟨H, none, []⟩ ∧
      events.extend none c H = ⟨H, none, []⟩) ∧
    (∀ (a b c : Ref) (H : Heap),
      events.receive none a b c H = ⟨H, none, []⟩ ∧
      events.error none a b H = ⟨H, none, []⟩) ∧
    (∀ (o : Options) (c : Ref) (H : Heap),
      ((∀ h, o.connect ≠ OptField.fn h) →
        events.connect (some o) c H = ⟨H, none, []⟩) ∧
      ((∀ h, o.disconnect ≠ OptField.fn h) →
        events.disconnect (some o) c H = ⟨H, none, []⟩) ∧
      ((∀ h, o.query ≠ OptField.fn h) →
        events.query (some o) c H = ⟨H, none, []⟩) ∧
      ((∀ h, o.task ≠ OptField.fn h) →
        events.task (some o) c H = ⟨H, none, []⟩) ∧
      ((∀ h, o.transact ≠ OptField.fn h) →
        events.transact (some o) c H = ⟨H, none, []⟩) ∧
      ((∀ h, o.extend ≠ OptField.fn h) →
        events.extend (some o) c H = ⟨H, none, []⟩)) ∧
    (∀ (o : Options) (a b c : Ref) (H : Heap),
      ((∀ h, o.receive ≠ OptField.fn h) →
        events.receive (some o) a b c H = ⟨H, none, []⟩) ∧
      ((∀ h, o.error ≠ OptField.fn h) →
        events.error (some o) a b H = ⟨H, none, []⟩)) := by
  refine ⟨?_, ?_, ?_, ?_⟩
  · intro c H
    refine ⟨rfl, rfl, rfl, rfl, rfl, rfl⟩
  · intro a b c H
    exact ⟨rfl, rfl⟩
  · intro o c H
    refine ⟨?_, ?_, ?_, ?_, ?_, ?_⟩
    · intro hno
      match hc : o.connect with
      | OptField.fn h => exact absurd hc (hno h)
      | OptField.absent => simp [events.connect, hc]
      | OptField.notFn v => simp [events.connect, hc]
    · intro hno
      match hc : o.disconnect with
      | OptField.fn h => exact absurd hc (hno h)
      | OptField.absent => simp [events.disconnect, hc]
      | OptField.notFn v => simp [events.disconnect, hc]
    · intro hno
      match hc : o.query with
      | OptField.fn h => exact absurd hc (hno h)
      | OptField.absent => simp [events.query, hc]
      | OptField.notFn v => simp [events.query, hc]
    · intro hno
      match hc : o.task with
      | OptField.fn h => exact absurd hc (hno h)
      | OptField.absent => simp [events.task, hc]
      | OptField.notFn v => simp [events.task, hc]
    · intro hno
      match hc : o.transact with
      | OptField.fn h => exact absurd hc (hno h)
      | OptField.absent => simp [events.transact, hc]
      | OptField.notFn v => simp [events.transact, hc]
    · intro hno
      match hc : o.extend with
      | OptField.fn h => exact absurd hc (hno h)
      | OptField.absent => simp [events.extend, hc]
      | OptField.notFn v => simp [events.extend, hc]
  · intro o a b c H
    refine ⟨?_, ?_⟩
    · intro hno
      match hc : o.receive with
      | OptField.fn h => exact absurd hc (hno h)
      | OptField.absent => simp [events.receive, hc]
      | OptField.notFn v => simp [events.receive, hc]
    · intro hno
      match hc : o.error with
      | OptField.fn h => exact absurd hc (hno h)
      | OptField.absent => simp [events.error, hc]
      | OptField.notFn v => simp [events.error, hc]

/-- C7 witness: with no handler configured, a query dispatch at a concrete
store returns no error, leaves the store alone, and never invokes the sink. -/
theorem no_handler_noop_witness :
    events.query none 0 emptyHeap = ⟨emptyHeap, none, []⟩ ∧
    events.query (some noHandlers) 0 emptyHeap = ⟨emptyHeap, none, []⟩ ∧
    events.connect (some noHandlers) 0 emptyHeap = ⟨emptyHeap, none, []⟩ :=
  ⟨(no_handler_noop.1 0 emptyHeap).2.2.1,
    (no_handler_noop.2.2.1 noHandlers 0 emptyHeap).2.2.1
      (fun _ hh => OptField.noConfusion hh),
    (no_handler_noop.2.2.1 noHandlers 0 emptyHeap).1
      (fun _ hh => OptField.noConfusion hh)⟩

/-- C8: the diagnostic sink writes nothing when the suppression flag is set;
otherwise it writes the header line naming the event and, when the error
value is not null/undefined, one detail line holding the stack when truthy,
else the message when truthy, else the raw value; for a null/undefined error
only the header is written, and the header embeds the event name. -/
theorem unexpected_sink_output :
    (∀ (event : String) (err : JSVal), events.unexpected true event err = []) ∧
    (∀ (event : String) (err : JSVal), isNull err = true →
      events.unexpected false event err
        = [JSVal.strV (events.unexpectedHeader event)]) ∧
    (∀ (event : String) (err : JSVal), isNull err = false →
      truthy (getField err "stack") = true →
      events.unexpected false event err
        = [JSVal.strV (events.unexpectedHeader event), getField err "stack"]) ∧
    (∀ (event : String) (err : JSVal), isNull err = false →
      truthy (getField err "stack") = false →
      truthy (getField err "message") = true →
      events.unexpected false event err
        = [JSVal.strV (events.unexpectedHeader event), getField err "message"]) ∧
    (∀ (event : String) (err : JSVal), isNull err = false →
      truthy (getField err "stack") = false →
      truthy (getField err "message") = false →
      events.unexpected false event err
        = [JSVal.strV (events.unexpectedHeader event), err]) ∧
    (∀ (event : String), ∃ (a b : String),
      events.unexpectedHeader event = a ++ (event ++ b)) := by
  refine ⟨?_, ?_, ?_, ?_, ?_, ?_⟩
  · intro event err
    simp [events.unexpected]
  · intro event err hn
    simp [events.unexpected, hn]
  · intro event err hn hs
    simp [events.unexpected, jsOr, hn, hs]
  · intro event err hn hs hm
    simp [events.unexpected, jsOr, hn, hs, hm]
  · intro event err hn hs hm
    simp [events.unexpected, jsOr, hn, hs, hm]
  · intro event
    exact ⟨"Unexpected error in " ++ String.singleton events.quoteChar,
      String.singleton events.quoteChar ++ " event handler.",
      by simp [events.unexpectedHeader, String.append_assoc]⟩

/-- C8 witness: concrete sink calls — suppressed output is empty; an error
object with a truthy stack prints the header and the stack; a null error
prints only the header. -/
theorem unexpected_sink_output_witness :
    events.unexpected true "task" (JSVal.strV "boom") = [] ∧
    events.unexpected false "task" (JSVal.objV [("stack", JSVal.strV "trace")])
      = [JSVal.strV (events.unexpectedHeader "task"),
          getField (JSVal.objV [("stack", JSVal.strV "trace")]) "stack"] ∧
    events.unexpected false "connect" JSVal.nullV
      = [JSVal.strV (events.unexpectedHeader "connect")] :=
  ⟨unexpected_sink_output.1 "task" (JSVal.strV "boom"),
    unexpected_sink_output.2.2.1 "task"
      (JSVal.objV [("stack", JSVal.strV "trace")]) rfl (by decide),
    unexpected_sink_output.2.1 "connect" JSVal.nullV rfl⟩

/-- C9: the receive dispatch passes the data, result and context references
themselves to the handler — no copy is made — so after a normally-returning
handler the row-delivery step hands the caller the very same data reference
under the handler-updated store, making handler mutations visible to the
caller; the dispatcher adds no store mutation of its own, and with no
callable handler the store is untouched. -/
theorem receive_no_copy_frame :
    (∀ (o : Options) (h : Handler3) (d r c : Ref) (H H2 : Heap) (u : Unit),
      o.receive = OptField.fn h → h d r c H = (H2, Except.ok u) →
      events.receive (some o) d r c H = ⟨H2, none, []⟩ ∧
      deliverRows (some o) d r c H = (H2, Except.ok d)) ∧
    (∀ (o : Options) (h : Handler3) (d r c : Ref) (H : Heap),
      o.receive = OptField.fn h →
      (∀ (a b cc : Ref) (K : Heap), (h a b cc K).1 = K) →
      (events.receive (some o) d r c H).heap = H) ∧
    (∀ (o : Options) (d r c : Ref) (H : Heap),
      (∀ h, o.receive ≠ OptField.fn h) →
      events.receive (some o) d r c H = ⟨H, none, []⟩) := by
  refine ⟨?_, ?_, ?_⟩
  · intro o h d r c H H2 u hor hr
    constructor
    · simp [events.receive, hor, hr]
    · simp [deliverRows, events.receive, hor, hr]
  · intro o h d r c H hor hpure
    match hr : h d r c H with
    | (H2, Except.ok u) =>
      have hH : H2 = H := by
        have := hpure d r c H
        rw [hr] at this
        exact this
      subst hH
      simp [events.receive, hor, hr]
    | (H2, Except.error e) =>
      have hH : H2 = H := by
        have := hpure d r c H
        rw [hr] at this
        exact this
      subst hH
      simp [events.receive, hor, hr]
  · intro o d r c H hno
    match hc : o.receive with
    | OptField.fn h => exact absurd hc (hno h)
    | OptField.absent => simp [events.receive, hc]
    | OptField.notFn v => simp [events.receive, hc]

/-- C9 witness: a concrete handler that rewrites the row object held at the
data reference — the delivery step returns that same reference and the caller
reads the mutated value there. -/
theorem receive_no_copy_frame_witness :
    deliverRows (some onlyReceiveMutate) 0 1 2 emptyHeap
      = ((fun r => if r = 0 then JSVal.strV "camelized" else emptyHeap r),
          Except.ok 0) ∧
    (deliverRows (some onlyReceiveMutate) 0 1 2 emptyHeap).1 0
      = JSVal.strV "camelized" := by
  have h := (receive_no_copy_frame.1 onlyReceiveMutate mutatingH3 0 1 2 emptyHeap
    (fun r => if r = 0 then JSVal.strV "camelized" else emptyHeap r) () rfl rfl).2
  exact ⟨h, by rw [h]; rfl⟩

/-- C10: library initialization rejects every non-null options value whose
type is neither object nor string with the TypeError message for invalid
initialization options; an options object carrying a host or database
property is rejected as a connection object mistaken for options; and the
returned instance function rejects a falsy or non-string non-object
connection argument with the invalid-connection-details TypeError. -/
theorem main_init_validation :
    (∀ (cs : String → Bool) (v : JSVal),
      isNull v = false → typeOf v ≠ "object" → typeOf v ≠ "string" →
      mainValidate cs v = some "Invalid initialization options.") ∧
    (∀ (cs : String → Bool) (fs : List (String × JSVal)),
      (hasKey fs "host" = true ∨ hasKey fs "database" = true) →
      mainValidate cs (JSVal.objV fs) = some initMixupMsg) ∧
    (∀ (opts cn : JSVal),
      (truthy cn = false ∨ (typeOf cn ≠ "string" ∧ typeOf cn ≠ "object")) →
      inst opts cn = Except.error "Invalid connection details.") := by
  refine ⟨?_, ?_, ?_⟩
  · intro cs v hnull hobj hstr
    match v with
    | JSVal.undefined => simp [isNull] at hnull
    | JSVal.nullV => simp [isNull] at hnull
    | JSVal.strV s => simp [typeOf] at hstr
    | JSVal.objV fs => simp [typeOf] at hobj
    | JSVal.boolV b => simp [mainValidate, isNull, typeOf, truthy]
    | JSVal.numV n => simp [mainValidate, isNull, typeOf, truthy]
    | JSVal.funcV t => simp [mainValidate, isNull, typeOf, truthy]
  · intro cs fs hk
    rcases hk with hk | hk <;>
      simp [mainValidate, isNull, typeOf, truthy, hk]
  · intro opts cn hc
    rcases hc with hc | ⟨hs, ho⟩
    · simp [inst, hc]
    · match cn with
      | JSVal.undefined => simp [inst, truthy]
      | JSVal.nullV => simp [inst, truthy]
      | JSVal.boolV b => simp [inst, typeOf, truthy]
      | JSVal.numV n => simp [inst, typeOf, truthy]
      | JSVal.funcV t => simp [inst, typeOf, truthy]
      | JSVal.strV s => simp [typeOf] at hs
      | JSVal.objV fs => simp [typeOf] at ho

/-- C10 witness: a numeric options value, a connection-looking options object,
and a null connection argument each raise the documented TypeError. -/
theorem main_init_validation_witness :
    mainValidate (fun _ => false) (JSVal.numV 5)
      = some "Invalid initialization options." ∧
    mainValidate (fun _ => false) (JSVal.objV [("host", JSVal.strV "x")])
      = some initMixupMsg ∧
    inst JSVal.undefined JSVal.nullV
      = Except.error "Invalid connection details." :=
  ⟨main_init_validation.1 (fun _ => false) (JSVal.numV 5) rfl (by decide)
      (by decide),
    main_init_validation.2.1 (fun _ => false) [("host", JSVal.strV "x")]
      (Or.inl rfl),
    main_init_validation.2.2 JSVal.undefined JSVal.nullV (Or.inl rfl)⟩
